import Mathlib

/-!
Verification development for the asset-manager module
(`ba/_assetmanager.py`): persistent `State` with its record codec,
`AssetManager` construction / state persistence / teardown, and the
`fetch_url` chunked download loop with its timeout-retry policy.

Machine-level effects (filesystem, blocking network reads) are embedded
as explicit oracles and state passing; the remote stream is a finite
list of read results consumed in order.
-/

namespace AssetMgr

/-! ### State and the record codec

`FileValue` in the source is an empty compound record, so the `files`
mapping of `State` is determined by its keys; we embed `State` as the
list of keys of the `files` dict (Python dicts preserve insertion
order, so a list is the faithful shape).

The record codec (`efro.entity` `to_json_str` / `from_json_str`) is not
part of this repository snapshot.  `encodeState` / `decodeState` below
are modelled from the spec: an `encode : State -> text` and
`decode : text -> State | failure` pair; the concrete wire format is an
escaped, separator-terminated key list. -/

structure State where
  files : List String
deriving DecidableEq, Repr

/-- Default-constructed `State()`: empty files mapping. -/
def defaultState : State := ⟨[]⟩

/-- Escape one character of a key: the escape char and the separator
are written as two-character escape sequences. -/
def escChar (c : Char) : List Char :=
  if c = '\\' then ['\\', '\\']
  else if c = ';' then ['\\', 's']
  else [c]

/-- Escape a whole key. -/
def escKey : List Char → List Char
  | [] => []
  | c :: cs => escChar c ++ escKey cs

/-- Encode a list of keys: each key escaped and terminated by the
separator. -/
def encodeFiles : List (List Char) → List Char
  | [] => []
  | k :: ks => escKey k ++ ';' :: encodeFiles ks

/-- Decode the wire format; `cur` accumulates the current key in
reverse.  Any malformed escape or unterminated key is a failure. -/
def decodeAux : List Char → List Char → Option (List (List Char))
  | [], cur => if cur = [] then some [] else none
  | c :: rest, cur =>
    if c = ';' then (decodeAux rest []).map (fun ks => cur.reverse :: ks)
    else if c = '\\' then
      match rest with
      | [] => none
      | d :: rest2 =>
        if d = '\\' then decodeAux rest2 ('\\' :: cur)
        else if d = 's' then decodeAux rest2 (';' :: cur)
        else none
    else decodeAux rest (c :: cur)

/-- Modelled from the spec: `encode(State) -> text` of the record codec
boundary (the `efro.entity` serializer is outside this snapshot). -/
def encodeState (s : State) : String :=
  ⟨encodeFiles (s.files.map String.data)⟩

/-- Modelled from the spec: `decode(text) -> State | failure` of the
record codec boundary. -/
def decodeState (t : String) : Option State :=
  (decodeAux t.data []).map (fun ks => ⟨ks.map (fun k => ⟨k⟩)⟩)

theorem decodeAux_escKey (k : List Char) :
    ∀ rest cur, decodeAux (escKey k ++ ';' :: rest) cur =
      (decodeAux rest []).map (fun ks => (cur.reverse ++ k) :: ks) := by
  induction k with
  | nil =>
    intro rest cur
    simp only [escKey, List.nil_append]
    rw [decodeAux.eq_def]
    simp
  | cons c cs ih =>
    intro rest cur
    by_cases hb : c = '\\'
    · subst hb
      simp only [escKey, escChar, if_pos rfl, List.cons_append, List.append_assoc]
      rw [decodeAux.eq_def]
      simp [ih, List.append_assoc]
    · by_cases hs : c = ';'
      · subst hs
        simp only [escKey, escChar, List.cons_append, List.append_assoc]
        rw [decodeAux.eq_def]
        simp [hb, ih, List.append_assoc]
      · simp only [escKey, escChar, hb, hs, if_neg, if_false, List.cons_append,
          List.singleton_append]
        rw [decodeAux.eq_def]
        simp [hb, hs, ih, List.append_assoc]

theorem decodeAux_encodeFiles (ks : List (List Char)) :
    decodeAux (encodeFiles ks) [] = some ks := by
  induction ks with
  | nil => simp [encodeFiles, decodeAux]
  | cons k ks ih => simp [encodeFiles, decodeAux_escKey, ih]

/-- Round-trip of the modelled record codec. -/
theorem decodeState_encodeState (s : State) :
    decodeState (encodeState s) = some s := by
  obtain ⟨files⟩ := s
  show (decodeAux (encodeFiles (files.map String.data)) []).map
      (fun ks => State.mk (ks.map fun k => String.mk k)) = some (State.mk files)
  rw [decodeAux_encodeFiles, Option.map_some', List.map_map]
  exact congrArg (fun l => some (State.mk l)) (List.map_id' files)

/-! ### Filesystem model

A filesystem is a partial map from path strings to file contents.
Directory existence checks and read/write failures are passed in as
oracles where the source meets them. -/

def FS := String → Option String

/-- Overwrite-write of a whole file (`open(path, 'w')` + `write`). -/
def FS.write (fs : FS) (p v : String) : FS :=
  fun q => if q = p then some v else fs q

/-- Embeds `Path.exists()`. -/
def FS.pathIsThere (fs : FS) (p : String) : Bool :=
  (fs p).isSome

/-- Failure cause of a file read (`open` / `read` raising `OSError`). -/
inductive ReadError
  | ioFailure
deriving DecidableEq, Repr

/-- Embeds `open(path).read()`: the full text, or an I/O error when the
file is absent. -/
def FS.readFile (fs : FS) (p : String) : Except ReadError String :=
  match fs p with
  | some t => .ok t
  | none => .error .ioFailure

/-! ### AssetManager -/

structure AssetManager where
  rootdir : String
  shuttingDown : Bool
  state : State
deriving DecidableEq, Repr

/-- Embeds the `state_path` property: `Path(self._rootdir, 'state')`. -/
def AssetManager.statePath (m : AssetManager) : String :=
  m.rootdir ++ "/state"

/-- Embeds the body of `load_state`: the whole existence check, read
and decode run inside one `try`; any failure (absent file, read error,
decode failure) falls through to a default-constructed `State()`.
`readResult` is the oracle for the read attempt. -/
def loadStateCore (pathFound : Bool) (readResult : Except ReadError String) : State :=
  if pathFound then
    match readResult with
    | .ok txt =>
      match decodeState txt with
      | some s => s
      | none => defaultState
    | .error _ => defaultState
  else defaultState

/-- Embeds `save_state` together with its save attempt: the write is
attempted at `state_path` with the encoded state; `writeOk = false` is
the `except` branch (failure logged, filesystem unchanged).  The second
component records the paths of attempted saves, in order. -/
def AssetManager.saveState (writeOk : Bool) (m : AssetManager) (fs : FS) :
    FS × List String :=
  (if writeOk then fs.write m.statePath (encodeState m.state) else fs,
   [m.statePath])

/-- Embeds `update`: saves exactly when `_shutting_down` is set,
otherwise performs nothing. -/
def AssetManager.update (writeOk : Bool) (m : AssetManager) (fs : FS) :
    FS × List String :=
  if m.shuttingDown then m.saveState writeOk fs else (fs, [])

/-- Embeds `__del__`: set `_shutting_down`, then call `update`. -/
def AssetManager.del (writeOk : Bool) (m : AssetManager) (fs : FS) :
    AssetManager × (FS × List String) :=
  let m2 := { m with shuttingDown := true }
  (m2, m2.update writeOk fs)

/-- The `RuntimeError` raised by `__init__` for a bad root directory
(the spec files it as `ConfigurationError`). -/
inductive InitError
  | rootdirMissing
deriving DecidableEq, Repr

/-- Embeds `AssetManager.__init__`: record the rootdir, clear the
shutting-down flag, fail when `rootdir` is not an existing directory
(`isDir` oracle), otherwise load state.  The filesystem is returned
unchanged on every path: construction never writes. -/
def constructManager (isDir : Bool) (rootdir : String) (fs : FS) :
    Except InitError AssetManager × FS :=
  if isDir then
    (.ok { rootdir := rootdir, shuttingDown := false,
           state := loadStateCore (fs.pathIsThere (rootdir ++ "/state"))
                      (fs.readFile (rootdir ++ "/state")) }, fs)
  else
    (.error .rootdirMissing, fs)

/-! ### The download routine (`fetch_url`)

The remote stream is a finite list of read results consumed in order:
each entry is what one `ureq.read(block_sz)` call yields — a
`socket.timeout`, or a block of bytes (the empty block signalling
end-of-stream, exactly how the source tests it with `if not data`).

Reachability of the owning `AssetGather` is an oracle `alive`, indexed
by loop iteration: it is the information `weak_gather` makes available
at each inter-chunk point.  The source never consults it, so the loop
threads it without reading it. -/

/-- One result of `ureq.read(block_sz)`. -/
inductive ReadResult
  | timeout
  | data (bs : List Nat)
deriving DecidableEq, Repr

/-- Observable state of one `fetch_url` call: bytes written to the
output file, whether the file is still on disk (`os.unlink` removes
it), `file_size_dl`, `time_outs`, and the progress reports emitted so
far as (bytes received, declared size) pairs. -/
structure FetchState where
  fileData : List Nat
  fileOnDisk : Bool
  fileSizeDl : Nat
  timeOuts : Nat
  reports : List (Nat × Nat)
deriving DecidableEq, Repr

/-- State right after `open(filename, 'wb')`: empty file on disk, no
bytes, no timeouts, no reports. -/
def initFetchState : FetchState := ⟨[], true, 0, 0, []⟩

/-- How one `fetch_url` loop terminates. `cancelled` is modelled from
the spec (ABORTED(cancelled) / `TransferCancelled`); no statement in
the source produces it. `outOfEvents` is the model artifact for a
stream list exhausted before a terminating event. -/
inductive LoopResult
  | completed
  | timeoutRaised
  | cancelled
  | outOfEvents
deriving DecidableEq, Repr

/-- Outcome of one loop body iteration: keep looping or exit. -/
inductive StepOut
  | next (st : FetchState)
  | halt (r : LoopResult) (st : FetchState)
deriving DecidableEq, Repr

/-- Embeds one iteration of the `while True` body of `fetch_url`.
On `socket.timeout`: when `time_outs > 3`, unlink the file and
re-raise; otherwise sleep, increment `time_outs` and continue.  On an
empty read: done.  On data: extend the file, bump `file_size_dl` and
emit a progress report — `time_outs` is left untouched. -/
def fetchStep (fileSize : Nat) (st : FetchState) : ReadResult → StepOut
  | .timeout =>
    if st.timeOuts > 3 then
      .halt .timeoutRaised { st with fileOnDisk := false }
    else
      .next { st with timeOuts := st.timeOuts + 1 }
  | .data bs =>
    if bs = [] then
      .halt .completed st
    else
      .next { st with
        fileData := st.fileData ++ bs
        fileSizeDl := st.fileSizeDl + bs.length
        reports := st.reports ++ [(st.fileSizeDl + bs.length, fileSize)] }

/-- Embeds the `while True` loop of `fetch_url`, consuming the stream
event by event.  `alive` is the gather-reachability oracle available at
iteration `iter`; the body never reads it, faithfully to the source. -/
def fetchLoop (alive : Nat → Bool) (fileSize : Nat) :
    Nat → List ReadResult → FetchState → LoopResult × FetchState
  | _, [], st => (.outOfEvents, st)
  | iter, r :: rest, st =>
    match fetchStep fileSize st r with
    | .halt res st2 => (res, st2)
    | .next st2 => fetchLoop alive fileSize (iter + 1) rest st2

/-- Top-level outcome of a `fetch_url` call.  `headerException` is the
uncaught `TypeError` / `ValueError` from `int(ureq.headers["Content-Length"])`
when the header is absent or non-numeric — nothing in the source
catches it.  `abortedBadResponse` is modelled from the spec
(ABORTED(bad-response) / `TransferBadResponse`, a typed reported
failure); no statement in the source produces it. -/
inductive FetchOutcome
  | ok (r : LoopResult) (st : FetchState)
  | headerException
  | abortedBadResponse
deriving DecidableEq, Repr

/-- Numeric value of a decimal digit character, if it is one. -/
def digitVal (c : Char) : Option Nat :=
  if c = '0' then some 0 else if c = '1' then some 1
  else if c = '2' then some 2 else if c = '3' then some 3
  else if c = '4' then some 4 else if c = '5' then some 5
  else if c = '6' then some 6 else if c = '7' then some 7
  else if c = '8' then some 8 else if c = '9' then some 9
  else none

/-- Parse a run of decimal digits, accumulating; any non-digit fails. -/
def parseNatAux : List Char → Nat → Option Nat
  | [], acc => some acc
  | c :: cs, acc =>
    match digitVal c with
    | some d => parseNatAux cs (acc * 10 + d)
    | none => none

/-- Embeds `int(ureq.headers["Content-Length"])`: `none` when the
header is absent (the lookup yields `None`, so `int` raises `TypeError`)
or its text is not a decimal numeral (`int` raises `ValueError`).
Pythonic `int` also tolerates surrounding whitespace and a sign, which
no real `Content-Length` value carries. -/
def parseContentLength (h : Option String) : Option Nat :=
  match h with
  | none => none
  | some s => if s.data = [] then none else parseNatAux s.data 0

/-- Embeds `fetch_url` after `urlopen`: obtain the size header before
any body read; then run the chunked loop from the fresh output file. -/
def fetchUrl (alive : Nat → Bool) (contentLength : Option String)
    (events : List ReadResult) : FetchOutcome :=
  match parseContentLength contentLength with
  | none => .headerException
  | some size =>
    let r := fetchLoop alive size 0 events initFetchState
    .ok r.1 r.2

/-! ### AssetGather and launch_gather -/

/-- Embeds `AssetGather`: `_valid` is set once in `__init__`; the
`fetchedUrl` / `fetchedPath` fields record the arguments its `__init__`
passes to `fetch_url`. -/
structure AssetGather where
  validFlag : Bool
  fetchedUrl : String
  fetchedPath : String
deriving DecidableEq, Repr

/-- Embeds the `valid` property, which returns `True` outright. -/
def AssetGather.valid (_ : AssetGather) : Bool := true

/-- The hardcoded URL in `AssetGather.__init__`. -/
def testUrl : String :=
  "http://www.python.org/ftp/python/2.7.3/Python-2.7.3.tgz"

/-- Embeds `AssetGather.__init__`: set `_valid`, then synchronously
fetch the hardcoded URL into `Path(manager.rootdir, 'testdl')`.  The
stream environment of that fetch (`alive`, header, events) is passed
through. -/
def gatherInit (m : AssetManager) (alive : Nat → Bool)
    (contentLength : Option String) (events : List ReadResult) :
    AssetGather × FetchOutcome :=
  (⟨true, testUrl, m.rootdir ++ "/testdl"⟩,
   fetchUrl alive contentLength events)

/-- Embeds `launch_gather`: the `packages`, `flavor` and
`account_token` arguments are only printed; the returned gather is
`AssetGather(self)`. -/
def launchGather (m : AssetManager) (packages : List String)
    (flavor : String) (accountToken : String) (alive : Nat → Bool)
    (contentLength : Option String) (events : List ReadResult) :
    AssetGather × FetchOutcome :=
  gatherInit m alive contentLength events

/-- Whether a loop result is the cancellation abort of the spec. -/
def LoopResult.isCancelled : LoopResult → Bool
  | .cancelled => true
  | _ => false

/-- Whether a fetch outcome is the typed bad-response report of the
spec. -/
def FetchOutcome.isBadResponseReport : FetchOutcome → Bool
  | .abortedBadResponse => true
  | _ => false

/-- Expected progress reports for a run of data chunks starting from a
byte count of `base`: one (cumulative bytes, declared size) pair per
chunk. -/
def reportsFor (fileSize : Nat) : Nat → List (List Nat) → List (Nat × Nat)
  | _, [] => []
  | base, b :: bs => (base + b.length, fileSize) :: reportsFor fileSize (base + b.length) bs

/-! ### Helper lemmas about the download loop -/

theorem fetchLoop_alive_irrel (evs : List ReadResult) :
    ∀ (a1 a2 : Nat → Bool) (fileSize i1 i2 : Nat) (st : FetchState),
      fetchLoop a1 fileSize i1 evs st = fetchLoop a2 fileSize i2 evs st := by
  induction evs with
  | nil => intro a1 a2 fileSize i1 i2 st; rfl
  | cons r rest ih =>
    intro a1 a2 fileSize i1 i2 st
    simp only [fetchLoop]
    cases fetchStep fileSize st r with
    | halt res st2 => rfl
    | next st2 => exact ih a1 a2 fileSize (i1 + 1) (i2 + 1) st2

theorem fetchLoop_no_cancel (evs : List ReadResult) :
    ∀ (a : Nat → Bool) (fileSize iter : Nat) (st : FetchState),
      ((fetchLoop a fileSize iter evs st).1).isCancelled = false := by
  induction evs with
  | nil => intro a fileSize iter st; rfl
  | cons r rest ih =>
    intro a fileSize iter st
    simp only [fetchLoop]
    cases r with
    | timeout =>
      by_cases h : st.timeOuts > 3
      · simp [fetchStep, h, LoopResult.isCancelled]
      · simp only [fetchStep, if_neg h]
        exact ih a fileSize (iter + 1) _
    | data bs =>
      by_cases h : bs = []
      · simp [fetchStep, h, LoopResult.isCancelled]
      · simp only [fetchStep, if_neg h]
        exact ih a fileSize (iter + 1) _

theorem fetchLoop_data_chunks (alive : Nat → Bool) (fileSize : Nat)
    (chunks : List (List Nat)) (rest : List ReadResult) :
    ∀ (iter : Nat) (fd : List Nat) (od : Bool) (dl tos : Nat)
      (rp : List (Nat × Nat)), (∀ b ∈ chunks, b ≠ []) →
      fetchLoop alive fileSize iter (chunks.map ReadResult.data ++ rest)
        ⟨fd, od, dl, tos, rp⟩ =
      fetchLoop alive fileSize (iter + chunks.length) rest
        ⟨fd ++ chunks.flatten, od, dl + chunks.flatten.length, tos,
         rp ++ reportsFor fileSize dl chunks⟩ := by
  induction chunks with
  | nil =>
    intro iter fd od dl tos rp _
    simp [reportsFor]
  | cons b bs ih =>
    intro iter fd od dl tos rp h
    have hb : b ≠ [] := h b (List.mem_cons_self b bs)
    have hbs : ∀ c ∈ bs, c ≠ [] := fun c hc => h c (List.mem_cons_of_mem b hc)
    simp only [List.map_cons, List.cons_append, fetchLoop, fetchStep, if_neg hb,
      List.append_eq]
    rw [ih (iter + 1) (fd ++ b) od (dl + b.length) tos
      (rp ++ [(dl + b.length, fileSize)]) hbs]
    rw [fetchLoop_alive_irrel rest alive alive fileSize (iter + 1 + bs.length)
      (iter + (b :: bs).length)]
    simp [reportsFor, List.append_assoc, Nat.add_assoc]

theorem chain_reportsFor (fileSize : Nat) (chunks : List (List Nat)) :
    ∀ base, (∀ b ∈ chunks, b ≠ []) →
      List.Chain (fun p q : Nat × Nat => p.1 < q.1) (base, fileSize)
        (reportsFor fileSize base chunks) := by
  induction chunks with
  | nil => intro base _; exact List.Chain.nil
  | cons b bs ih =>
    intro base h
    have hb : b ≠ [] := h b (List.mem_cons_self b bs)
    have hbs : ∀ c ∈ bs, c ≠ [] := fun c hc => h c (List.mem_cons_of_mem b hc)
    refine List.Chain.cons ?_ (ih (base + b.length) hbs)
    have : 0 < b.length := List.length_pos.mpr hb
    omega

theorem chain_pairs_reportsFor (fileSize base : Nat) (chunks : List (List Nat))
    (h : ∀ b ∈ chunks, b ≠ []) :
    List.Chain' (fun p q : Nat × Nat => p.1 < q.1)
      (reportsFor fileSize base chunks) := by
  cases chunks with
  | nil => simp [reportsFor]
  | cons b bs =>
    have hbs : ∀ c ∈ bs, c ≠ [] := fun c hc => h c (List.mem_cons_of_mem b hc)
    exact chain_reportsFor fileSize bs (base + b.length) hbs

theorem reportsFor_getLast (fileSize : Nat) (chunks : List (List Nat)) :
    ∀ base, chunks ≠ [] →
      (reportsFor fileSize base chunks).getLast? =
        some (base + chunks.flatten.length, fileSize) := by
  induction chunks with
  | nil => intro base hne; exact absurd rfl hne
  | cons b bs ih =>
    intro base _
    cases bs with
    | nil => simp [reportsFor]
    | cons c cs =>
      have h2 := ih (base + b.length) (by simp)
      simp only [reportsFor] at h2 ⊢
      rw [List.getLast?_cons_cons, h2]
      simp [Nat.add_assoc]

/-! ### Claim theorems -/

/-- Claim C1 (code bug): the download routine never checks whether the
owning AssetGather is still reachable.  First conjunct: the outcome of
`fetch_url` is identical under any two reachability oracles — the loop
never reads the information `weak_gather` provides.  Second conjunct:
no run ever reports the cancellation abort.  Third conjunct: with the
gather unreachable at every inter-chunk point, the routine still issues
every read, writes every chunk and completes normally. -/
theorem fetchUrl_ignores_gather_reachability :
    (∀ (a1 a2 : Nat → Bool) (cl : Option String) (evs : List ReadResult),
        fetchUrl a1 cl evs = fetchUrl a2 cl evs) ∧
    (∀ (a : Nat → Bool) (fileSize iter : Nat) (evs : List ReadResult)
        (st : FetchState),
        ((fetchLoop a fileSize iter evs st).1).isCancelled = false) ∧
    fetchUrl (fun _ => false) (some "3")
        [.data [1, 2], .data [3], .data []] =
      .ok .completed ⟨[1, 2, 3], true, 3, 0, [(2, 3), (3, 3)]⟩ := by
  refine ⟨?_, ?_, by decide⟩
  · intro a1 a2 cl evs
    simp only [fetchUrl]
    cases hp : parseContentLength cl with
    | none => rfl
    | some n =>
      simp only [hp]
      rw [fetchLoop_alive_irrel evs a1 a2 n 0 0]
  · intro a fileSize iter evs st
    exact fetchLoop_no_cancel evs a fileSize iter st

/-- Claim C2, counterexample: a stream with exactly 4 consecutive read
timeouts (strictly more than 3) followed by a data block and
end-of-stream completes normally with the output file still on disk —
it is not aborted as timeout-exhausted. -/
theorem fetch_four_timeouts_still_completes :
    fetchLoop (fun _ => true) 7 0
      [.timeout, .timeout, .timeout, .timeout,
       .data [9, 9, 9, 9, 9, 9, 9], .data []] initFetchState =
    (.completed, ⟨[9, 9, 9, 9, 9, 9, 9], true, 7, 4, [(7, 7)]⟩) := by
  decide

/-- Claim C2, amended: a download in which five read timeouts have
accumulated (the check `time_outs > 3` runs before the increment, so
the abort fires on the fifth timeout, and the counter is cumulative)
terminates with the `socket.timeout` re-raised and the output file
removed from disk. -/
theorem fetch_fifth_timeout_aborts (alive : Nat → Bool) (fileSize : Nat)
    (rest : List ReadResult) (st : FetchState) (h : st.timeOuts = 0) :
    fetchLoop alive fileSize 0 (List.replicate 5 .timeout ++ rest) st =
      (.timeoutRaised, { st with timeOuts := 4, fileOnDisk := false }) := by
  obtain ⟨fd, od, dl, tos, rp⟩ := st
  simp only [FetchState.timeOuts] at h
  subst h
  rfl

/-- Witness for the amended C2 theorem at a concrete state. -/
theorem fetch_fifth_timeout_aborts_witness :
    fetchLoop (fun _ => true) 5 0 (List.replicate 5 .timeout ++ [])
      initFetchState = (.timeoutRaised, ⟨[], false, 0, 4, []⟩) :=
  fetch_fifth_timeout_aborts (fun _ => true) 5 [] initFetchState rfl

/-- Claim C3, counterexample: a successful non-empty read does not
reset the timeout counter.  First conjunct: a data read from a state
with two accumulated timeouts leaves the counter at two, not zero.
Second conjunct: a stream alternating single timeouts with data blocks
— never two stalled reads back to back — is aborted as
timeout-exhausted at its fifth (non-consecutive) timeout, with the
partially-written file removed. -/
theorem fetch_counter_never_reset :
    fetchStep 100 ⟨[], true, 0, 2, []⟩ (.data [7]) =
      .next ⟨[7], true, 1, 2, [(1, 100)]⟩ ∧
    fetchLoop (fun _ => true) 100 0
      [.timeout, .data [1], .timeout, .data [2], .timeout, .data [3],
       .timeout, .data [4], .timeout] initFetchState =
      (.timeoutRaised,
       ⟨[1, 2, 3, 4], false, 4, 4, [(1, 100), (2, 100), (3, 100), (4, 100)]⟩) := by
  constructor
  · decide
  · decide

/-- Claim C3, amended: on a read returning a non-empty block the loop
appends the bytes, updates the running byte count and emits a progress
report, but leaves the timeout counter at its current value — it is
never reset, so the threshold counts timeouts accumulated across the
whole transfer, not only back-to-back ones. -/
theorem fetchStep_data_keeps_timeout_counter (fileSize : Nat)
    (st : FetchState) (bs : List Nat) (h : bs ≠ []) :
    fetchStep fileSize st (.data bs) =
      .next { st with
        fileData := st.fileData ++ bs
        fileSizeDl := st.fileSizeDl + bs.length
        reports := st.reports ++ [(st.fileSizeDl + bs.length, fileSize)] } := by
  simp [fetchStep, h]

/-- Witness for the amended C3 theorem at a concrete non-empty block. -/
theorem fetchStep_data_keeps_timeout_counter_witness :
    fetchStep 100 ⟨[5], true, 1, 2, [(1, 100)]⟩ (.data [7]) =
      .next ⟨[5, 7], true, 2, 2, [(1, 100), (2, 100)]⟩ :=
  fetchStep_data_keeps_timeout_counter 100 ⟨[5], true, 1, 2, [(1, 100)]⟩ [7]
    (by decide)

/-- Claim C4, counterexample: with the size header absent (or
non-numeric), `fetch_url` ends in the uncaught exception raised by the
integer conversion of the header — not in the typed
ABORTED(bad-response) report the spec describes. -/
theorem fetch_bad_header_is_uncaught :
    fetchUrl (fun _ => true) none [.data [1], .data []] = .headerException ∧
    fetchUrl (fun _ => true) (some "abc") [.data [1], .data []] =
      .headerException ∧
    (FetchOutcome.headerException).isBadResponseReport = false := by
  refine ⟨rfl, by decide, rfl⟩

/-- Claim C4, amended: when the size header is absent or non-numeric,
`fetch_url` terminates with the uncaught header-conversion exception
before consuming any body bytes — the outcome does not depend on the
stream at all; no typed TransferBadResponse report exists in the
code. -/
theorem fetchUrl_bad_header (alive : Nat → Bool) (cl : Option String)
    (evs evs2 : List ReadResult) (h : parseContentLength cl = none) :
    fetchUrl alive cl evs = .headerException ∧
    fetchUrl alive cl evs = fetchUrl alive cl evs2 := by
  simp [fetchUrl, h]

/-- Witness for the amended C4 theorem at an absent header. -/
theorem fetchUrl_bad_header_witness :
    fetchUrl (fun _ => true) none [.data [1]] = .headerException ∧
    fetchUrl (fun _ => true) none [.data [1]] =
      fetchUrl (fun _ => true) none [] :=
  fetchUrl_bad_header (fun _ => true) none [.data [1]] [] rfl

/-- Claim C5: constructing an `AssetManager` on a rootdir that is not
an existing directory fails with the configuration error (the
`RuntimeError` the spec files as `ConfigurationError`), loads no state
and leaves the filesystem untouched. -/
theorem constructManager_bad_rootdir (rootdir : String) (fs : FS) :
    constructManager false rootdir fs = (.error .rootdirMissing, fs) := rfl

/-- Claim C6: `load_state` is infallible from the point of view of its
caller — it is a total function: an absent state file, a failing read
or an undecodable text all yield a default-constructed `State`, and a
successful read with a successful decode yields the decoded `State`. -/
theorem loadState_infallible :
    (∀ rr, loadStateCore false rr = defaultState) ∧
    (∀ e, loadStateCore true (.error e) = defaultState) ∧
    (∀ t, decodeState t = none → loadStateCore true (.ok t) = defaultState) ∧
    (∀ t s, decodeState t = some s → loadStateCore true (.ok t) = s) := by
  refine ⟨fun rr => rfl, fun e => rfl, ?_, ?_⟩
  · intro t ht
    simp [loadStateCore, ht]
  · intro t s ht
    simp [loadStateCore, ht]

/-- Witness for the C6 theorem: every arm is realisable, including a
genuinely undecodable text and a genuinely decodable one. -/
theorem loadState_infallible_witness :
    loadStateCore false (.ok "x") = defaultState ∧
    loadStateCore true (.error .ioFailure) = defaultState ∧
    loadStateCore true (.ok "\\") = defaultState ∧
    loadStateCore true (.ok (encodeState ⟨["a"]⟩)) = ⟨["a"]⟩ :=
  ⟨loadState_infallible.1 _, loadState_infallible.2.1 _,
   loadState_infallible.2.2.1 "\\" (by decide),
   loadState_infallible.2.2.2 _ _ (by decide)⟩

/-- Claim C7: saving any `State` at the state path and loading it back
from the resulting filesystem round-trips the same `State` (the write
and read both succeeding). -/
theorem saveState_loadState_roundtrip (m : AssetManager) (fs : FS) :
    loadStateCore (((m.saveState true fs).1).pathIsThere m.statePath)
      (((m.saveState true fs).1).readFile m.statePath) = m.state := by
  simp [AssetManager.saveState, FS.write, FS.pathIsThere, FS.readFile,
    loadStateCore, decodeState_encodeState]

/-- Claim C8: destroying a manager sets the shutting-down flag and, via
`update`, saves the current in-memory state to the state file; `update`
on a manager that is not shutting down attempts no save and changes
nothing. -/
theorem del_saves_update_noop :
    (∀ (m : AssetManager) (fs : FS),
        ((AssetManager.del true m fs).1).shuttingDown = true ∧
        (AssetManager.del true m fs).2 =
          (fs.write m.statePath (encodeState m.state), [m.statePath])) ∧
    (∀ (m : AssetManager) (fs : FS), m.shuttingDown = false →
        AssetManager.update true m fs = (fs, [])) := by
  refine ⟨fun m fs => ⟨rfl, rfl⟩, ?_⟩
  intro m fs h
  simp [AssetManager.update, h]

/-- Witness for the C8 theorem at a concrete manager and filesystem. -/
theorem del_saves_update_noop_witness :
    ((AssetManager.del true ⟨"r", false, defaultState⟩ (fun _ => none)).1).shuttingDown
        = true ∧
    AssetManager.update true ⟨"r", false, defaultState⟩ (fun _ => none) =
      ((fun _ => none), []) :=
  ⟨(del_saves_update_noop.1 ⟨"r", false, defaultState⟩ (fun _ => none)).1,
   del_saves_update_noop.2 ⟨"r", false, defaultState⟩ (fun _ => none) rfl⟩

/-- Claim C9: a stream delivering non-empty data chunks and then
end-of-stream completes the download with the output file holding
exactly the concatenation of the chunks, the running byte count equal
to the total length, progress reports exactly the partial sums of the
chunk lengths, emitted in strictly increasing byte-count order, and —
when the declared size matches the bytes received — a final report of
100 percent of the declared size. -/
theorem fetch_clean_stream (alive : Nat → Bool) (fileSize : Nat)
    (chunks : List (List Nat)) (h : ∀ b ∈ chunks, b ≠ []) :
    fetchLoop alive fileSize 0 (chunks.map ReadResult.data ++ [.data []])
        initFetchState =
      (.completed, ⟨chunks.flatten, true, chunks.flatten.length, 0,
        reportsFor fileSize 0 chunks⟩) ∧
    List.Chain' (fun p q : Nat × Nat => p.1 < q.1)
      (reportsFor fileSize 0 chunks) ∧
    (fileSize = chunks.flatten.length → chunks ≠ [] →
      (reportsFor fileSize 0 chunks).getLast? = some (fileSize, fileSize)) := by
  refine ⟨?_, chain_pairs_reportsFor fileSize 0 chunks h, ?_⟩
  · have hrun := fetchLoop_data_chunks alive fileSize chunks [.data []]
      0 [] true 0 0 [] h
    rw [show initFetchState = (⟨[], true, 0, 0, []⟩ : FetchState) from rfl, hrun]
    simp [fetchLoop, fetchStep]
  · intro hfs hne
    rw [reportsFor_getLast fileSize chunks 0 hne]
    simp [hfs]

/-- Witness for the C9 theorem: two chunks of sizes 2 and 1 against a
declared size of 3. -/
theorem fetch_clean_stream_witness :
    fetchLoop (fun _ => true) 3 0
        (([[1, 2], [3]] : List (List Nat)).map ReadResult.data ++ [.data []])
        initFetchState =
      (.completed, ⟨[1, 2, 3], true, 3, 0, [(2, 3), (3, 3)]⟩) ∧
    ([(2, 3), (3, 3)] : List (Nat × Nat)).getLast? = some (3, 3) :=
  ⟨(fetch_clean_stream (fun _ => true) 3 [[1, 2], [3]] (by decide)).1,
   (fetch_clean_stream (fun _ => true) 3 [[1, 2], [3]] (by decide)).2.2
     (by decide) (by decide)⟩

/-- Claim C10: `launch_gather` ignores its `packages`, `flavor` and
`account_token` arguments entirely (they are only printed): the
resulting gather always records the one hardcoded URL and the fixed
target path `rootdir/testdl`, synchronously runs the fetch against the
given stream environment, and its `valid` property returns true
unconditionally. -/
theorem launchGather_fixed_target :
    (∀ (m : AssetManager) (p p2 : List String) (f f2 t t2 : String)
        (alive : Nat → Bool) (cl : Option String) (evs : List ReadResult),
        launchGather m p f t alive cl evs = launchGather m p2 f2 t2 alive cl evs) ∧
    (∀ (m : AssetManager) (p : List String) (f t : String)
        (alive : Nat → Bool) (cl : Option String) (evs : List ReadResult),
        (launchGather m p f t alive cl evs).1.fetchedUrl = testUrl ∧
        (launchGather m p f t alive cl evs).1.fetchedPath =
          m.rootdir ++ "/testdl" ∧
        (launchGather m p f t alive cl evs).1.valid = true ∧
        (launchGather m p f t alive cl evs).2 = fetchUrl alive cl evs) :=
  ⟨fun _ _ _ _ _ _ _ _ _ _ => rfl,
   fun _ _ _ _ _ _ _ => ⟨rfl, rfl, rfl, rfl⟩⟩

end AssetMgr
